import Mathlib

/-!
Verification development for `kml_polygon_to_convex_hull.py`.

The script reads a KML layer, extracts a shapely geometry per polygonal
feature, repairs invalid polygons with a zero-distance buffer, unions the
surviving polygons, takes the convex hull, and writes it to a new KML file.

Shallow embedding choices:
* Coordinates are exact rationals (`ℚ`); the source's doubles are idealized
  as exact arithmetic.
* A shapely geometry built by the script is either a `Polygon` (its closed
  exterior-ring coordinate list) or a `MultiPolygon` (a list of such rings).
* The OGR layer is a list of features, each with an optional name and an
  optional raw geometry carrying the data the script actually reads:
  the geometry-type tag, the (possibly null) outer-ring handle, and the
  point triples `GetPoint` returns (the script keeps only x and y).
  Opening the datasource (`driver.Open`) is upstream of the embedded layer;
  the `SourceOpenFailed` path is not needed by any claim settled here.
* The geometry-library operations the pipeline calls (`is_valid`,
  `buffer(0)`, `unary_union`, `convex_hull`) are external library calls,
  kept as an explicit `GeosBackend` parameter; documented facts about them
  are taken as pointwise hypotheses where a claim needs them, and
  `geosModel` is a small executable instance agreeing with the library's
  documented behavior on the concrete inputs used below.
* A run of `create_convex_hull` is summarized by its `Outcome` (which
  exception was raised, which early return was taken, or the written hull)
  together with the list of output-side events that occurred
  (`CreateDataSource`, `CreateFeature`).
-/

namespace KmlHull

/-- A 2D coordinate pair, as kept by the script (`(x, y)`). -/
abbrev Pt : Type := ℚ × ℚ

/-- A raw point as returned by OGR's `GetPoint(i)`: an `(x, y, z)` triple.
The script projects out the first two components. -/
abbrev RawPoint : Type := ℚ × ℚ × ℚ

/-- A shapely geometry as constructed by the script: a `Polygon` carrying
its closed exterior-ring coordinates, or a `MultiPolygon` carrying the
closed exterior rings of its parts. -/
inductive Geometry where
  | polygon (ring : List Pt)
  | multiPolygon (rings : List (List Pt))
  deriving DecidableEq, Repr

/-- shapely `g.is_empty`: a `Polygon` with no coordinates is empty; a
`MultiPolygon` is empty when it has no non-empty part. -/
def Geometry.is_empty : Geometry → Bool
  | .polygon r => r.isEmpty
  | .multiPolygon rs => rs.all List.isEmpty

/-- Python `isinstance(g, Polygon)`: true exactly for shapely `Polygon`
instances; shapely's `MultiPolygon` is not a subclass of `Polygon`. -/
def isinstancePolygon : Geometry → Bool
  | .polygon _ => true
  | .multiPolygon _ => false

/-- All coordinates stored in a geometry, in order (GEOS operations such as
the convex hull read exactly these). -/
def vertexList : Geometry → List Pt
  | .polygon r => r
  | .multiPolygon rs => rs.flatten

/-- The set of coordinates of a geometry. -/
def vertexSet (g : Geometry) : Set Pt := {p | p ∈ vertexList g}

/-- shapely closes a ring whose first and last coordinates differ by
appending the first coordinate. -/
def closeRing (c : List Pt) : List Pt :=
  match c with
  | [] => []
  | p :: _ => if c.getLast? = some p then c else c ++ [p]

/-- shapely's linear-ring construction, as invoked by `Polygon(coords)`
(lines 29 and 38): an empty coordinate list gives an empty ring; otherwise
the ring is closed and must have at least 4 coordinates, else the
constructor raises a `ValueError`. -/
def linearRing (c : List Pt) : Except String (List Pt) :=
  if c.isEmpty then .ok []
  else
    let r := closeRing c
    if r.length < 4 then .error "A linearring requires at least 4 coordinates"
    else .ok r

/-- shapely `Polygon(coords)` with only an exterior ring. -/
def shapelyPolygon (c : List Pt) : Except String Geometry :=
  (linearRing c).map Geometry.polygon

/-- Whether a shapely constructor call succeeded. -/
def succeeds (e : Except String Geometry) : Bool :=
  match e with
  | .ok _ => true
  | .error _ => false

/-- Lines 28 and 37:
`[(ring.GetPoint(i)[0], ring.GetPoint(i)[1]) for i in range(ring.GetPointCount())]`. -/
def ringCoords (ring : List RawPoint) : List Pt :=
  (List.range ring.length).map fun i => ((ring.getD i default).1, (ring.getD i default).2.1)

/-- The raw OGR geometry data the script reads from one feature: the
`GetGeometryName()` tag, and per polygon the possibly-null outer-ring
handle (`GetGeometryRef(0)`) with its points. -/
inductive RawGeom where
  | polygon (outer : Option (List RawPoint))
  | multiPolygon (subs : List (Option (List RawPoint)))
  | other (tag : String)
  deriving DecidableEq

/-- One feature of the opened layer: `GetField("Name")` and
`GetGeometryRef()`. -/
structure Feature where
  name : Option String
  geom : Option RawGeom
  deriving DecidableEq

/-- Lines 33–38: the MULTIPOLYGON loop. Each sub-geometry's outer ring, if
present, is turned into a `Polygon` (whose construction can raise); null
sub-rings are skipped. -/
def subPolygons : List (Option (List RawPoint)) → Except String (List (List Pt))
  | [] => .ok []
  | none :: rest => subPolygons rest
  | some r :: rest => do
      let ring ← linearRing (ringCoords r)
      let rings ← subPolygons rest
      .ok (ring :: rings)

/-- The per-feature body of the extraction loop (lines 19–40): features
without geometry and non-polygonal geometry types are skipped; a POLYGON
with a null outer ring is skipped; otherwise the shapely geometry is
built (construction errors propagate). -/
def extractFeature (f : Feature) : Except String (Option Geometry) :=
  match f.geom with
  | none => .ok none
  | some (.other _) => .ok none
  | some (.polygon none) => .ok none
  | some (.polygon (some ring)) => do
      let r ← linearRing (ringCoords ring)
      .ok (some (.polygon r))
  | some (.multiPolygon subs) => do
      let rs ← subPolygons subs
      .ok (some (.multiPolygon rs))

/-- `extract_polygons_from_kml` (lines 6–43), over an already-opened
layer: one shapely geometry is appended per processed feature, in layer
order; exceptions from shapely constructors propagate. -/
def extract_polygons_from_kml : List Feature → Except String (List Geometry)
  | [] => .ok []
  | f :: rest => do
      let og ← extractFeature f
      let gs ← extract_polygons_from_kml rest
      match og with
      | none => .ok gs
      | some g => .ok (g :: gs)

/-- The shapely/GEOS operations the pipeline calls on already-constructed
geometries. They live in the geometry library, outside this repository, so
they are a parameter of the embedded pipeline; claims assume only their
documented behavior, pointwise. -/
structure GeosBackend where
  is_valid : Geometry → Bool
  buffer0 : Geometry → Geometry
  unary_union : List Geometry → Geometry
  convex_hull : Geometry → Geometry

/-- `validate_and_fix_polygon` (lines 45–50): a valid polygon is returned
unchanged, an invalid one is replaced by its zero-distance buffer. -/
def validate_and_fix_polygon (B : GeosBackend) (polygon : Geometry) : Geometry :=
  if B.is_valid polygon then polygon else B.buffer0 polygon

/-- Line 61:
`[validate_and_fix_polygon(poly) for poly in polygons if isinstance(poly, Polygon) and not poly.is_empty]`
— the collection handed to `unary_union`. -/
def valid_polygons (B : GeosBackend) (polygons : List Geometry) : List Geometry :=
  (polygons.filter fun poly => isinstancePolygon poly && !poly.is_empty).map
    (validate_and_fix_polygon B)

/-- Output-side effects of a run. `createDataSource` is the creation of
the output KML file (line 80); `createFeature` writes the hull feature
(line 92). -/
inductive Event where
  | createDataSource
  | createFeature
  deriving DecidableEq

/-- How a run of `create_convex_hull` ends. -/
inductive Outcome where
  /-- An exception (`ValueError`) escaped: its message. -/
  | raised (msg : String)
  /-- Early `return` at line 65: "No valid polygons found after validation." -/
  | softStopNoValid
  /-- Early `return` at line 72: empty convex hull. -/
  | stopEmptyHull
  /-- Early `return` at line 89: WKT conversion returned null. -/
  | failedWkt
  /-- The hull was written to the output file. -/
  | written (hull : Geometry)
  deriving DecidableEq

/-- Did the run end with the hull written? -/
def Outcome.isWritten : Outcome → Bool
  | .written _ => true
  | _ => false

/-- The observable summary of one run. -/
structure Run where
  outcome : Outcome
  events : List Event
  deriving DecidableEq

/-- `ogr.CreateGeometryFromWkt(convex_hull.wkt)` (line 85): the WKT shapely
prints for a geometry is well-formed, and OGR parses every well-formed
polygonal WKT, so the conversion is total; the `none` branch below only
mirrors the source's null check at line 87. -/
def createGeometryFromWkt (g : Geometry) : Option Geometry := some g

/-- `create_convex_hull` (lines 52–98): extraction, the no-polygon
`ValueError`, the filter-and-repair comprehension, the soft stop, the
union, the hull, the empty-hull stop, and the output-writing tail. -/
def create_convex_hull (B : GeosBackend) (layer : List Feature) : Run :=
  match extract_polygons_from_kml layer with
  | .error e => ⟨.raised e, []⟩
  | .ok polygons =>
    if polygons.isEmpty then ⟨.raised "No polygons found to create a convex hull.", []⟩
    else
      let vp := valid_polygons B polygons
      if vp.isEmpty then ⟨.softStopNoValid, []⟩
      else
        let combined := B.unary_union vp
        let hull := B.convex_hull combined
        if hull.is_empty then ⟨.stopEmptyHull, []⟩
        else
          match createGeometryFromWkt hull with
          | none => ⟨.failedWkt, [.createDataSource]⟩
          | some _ => ⟨.written hull, [.createDataSource, .createFeature]⟩

/-- Twice the signed (shoelace) area of a closed coordinate ring: the sum
of the edge cross terms over consecutive coordinates. For a ring whose
last coordinate repeats the first, this is twice the enclosed signed
area. -/
def ringArea2 : List Pt → ℚ
  | [] => 0
  | [_] => 0
  | p :: q :: rest => (p.1 * q.2 - q.1 * p.2) + ringArea2 (q :: rest)

/-- A small executable backend used to instantiate the documented GEOS
contracts at the concrete inputs of the witnesses and counterexamples
below. It agrees with shapely/GEOS on those inputs:
* an empty geometry is valid; a zero-area ring (e.g. a collinear ring,
  which GEOS reports as self-intersecting) is invalid;
* `buffer(0)` of a zero-area polygon is the empty polygon, and of a
  positive-area valid polygon is the polygon itself; its results are
  valid;
* `unary_union` of a one-element list is that element;
* `convex_hull` returns a geometry spanning the same coordinates, so the
  GEOS hull contract `convexHull (vertexSet output) = convexHull
  (vertexSet input)` holds for it definitionally. -/
def geosModel : GeosBackend where
  is_valid g :=
    match g with
    | .polygon r => r.isEmpty || decide (ringArea2 r ≠ 0)
    | .multiPolygon rs => rs.all fun r => r.isEmpty || decide (ringArea2 r ≠ 0)
  buffer0 g :=
    match g with
    | .polygon r => if ringArea2 r = 0 then .polygon [] else .polygon r
    | .multiPolygon rs => .multiPolygon (rs.filter fun r => decide (ringArea2 r ≠ 0))
  unary_union l :=
    match l with
    | [g] => g
    | l => .multiPolygon (l.map vertexList)
  convex_hull g := g

/-! ### Concrete fixtures -/

/-- Raw points of a right triangle, as OGR would hand them out. -/
def triRaw : List RawPoint := [(0, 0, 0), (4, 0, 0), (0, 3, 0)]

/-- The closed shapely ring built from `triRaw`. -/
def tri4 : List Pt := [(0, 0), (4, 0), (0, 3), (0, 0)]

/-- Raw points of a degenerate, collinear ring: shapely accepts the
construction (4 coordinates after closing) but GEOS reports the polygon
invalid (its boundary self-intersects along the line) and `buffer(0)`
collapses it to an empty polygon. -/
def colRaw : List RawPoint := [(0, 0, 0), (1, 1, 0), (2, 2, 0)]

/-- The closed shapely ring built from `colRaw`. -/
def col4 : List Pt := [(0, 0), (1, 1), (2, 2), (0, 0)]

/-- A closed unit-square ring away from the triangle. -/
def sq4 : List Pt := [(10, 10), (11, 10), (11, 11), (10, 11), (10, 10)]

/-- A layer with one MULTIPOLYGON feature holding one triangle part. -/
def layerMulti : List Feature := [⟨some "m", some (.multiPolygon [some triRaw])⟩]

/-- A layer with one POLYGON feature holding the triangle. -/
def layerTri : List Feature := [⟨some "t", some (.polygon (some triRaw))⟩]

/-- A layer with one POLYGON feature holding the degenerate collinear ring. -/
def layerCollinear : List Feature := [⟨none, some (.polygon (some colRaw))⟩]

/-- A MULTIPOLYGON feature none of whose sub-geometries has an outer
ring: every `GetGeometryRef(0)` handle is null. -/
def isAllNullMulti (f : Feature) : Bool :=
  match f.geom with
  | some (.multiPolygon subs) => subs.all Option.isNone
  | _ => false

/-- The pointwise region denoted by the union GEOS computes at line 67:
`unary_union` dissolves its inputs into the set-union of their regions,
whatever region each polygon denotes. -/
def unionRegion (region : Geometry → Set Pt) (l : List Geometry) : Set Pt :=
  ⋃ g ∈ l, region g

/-- Exact-arithmetic denotation of lines 67–68 (`unary_union` followed by
`.convex_hull`): the convex hull of the union of the input regions. -/
def unionHullRegion (region : Geometry → Set Pt) (l : List Geometry) : Set Pt :=
  convexHull ℚ (unionRegion region l)

/-! ### Helper lemmas -/

theorem range_map_getD {α β : Type} (d : α) (f : α → β) (l : List α) :
    (List.range l.length).map (fun i => f (l.getD i d)) = l.map f := by
  induction l with
  | nil => rfl
  | cons a t ih =>
      rw [List.length_cons, List.range_succ_eq_map, List.map_cons, List.map_map,
        List.map_cons]
      exact congrArg (List.cons (f a)) ih

/-- The comprehension at lines 28/37 reads out exactly the `(x, y)` parts
of the source points, in source order. -/
theorem ringCoords_eq_map (ring : List RawPoint) :
    ringCoords ring = ring.map fun p => (p.1, p.2.1) := by
  unfold ringCoords
  exact range_map_getD default (fun p => (p.1, p.2.1)) ring

/-- A run whose extraction succeeds with a non-empty collection but whose
filtered collection is empty stops at line 65. -/
theorem create_soft_stop (B : GeosBackend) (layer : List Feature) (polys : List Geometry)
    (hex : extract_polygons_from_kml layer = .ok polys) (hne : polys ≠ [])
    (hvp : valid_polygons B polys = []) :
    create_convex_hull B layer = ⟨.softStopNoValid, []⟩ := by
  obtain ⟨p, ps, rfl⟩ : ∃ p ps, polys = p :: ps := by
    cases polys with
    | nil => exact absurd rfl hne
    | cons p ps => exact ⟨p, ps, rfl⟩
  simp [create_convex_hull, hex, hvp]

theorem subPolygons_of_all_none (subs : List (Option (List RawPoint)))
    (h : subs.all Option.isNone = true) : subPolygons subs = .ok [] := by
  induction subs with
  | nil => rfl
  | cons s rest ih =>
      rw [List.all_cons, Bool.and_eq_true] at h
      cases s with
      | none => exact ih h.2
      | some r => simp [Option.isNone] at h

/-- Extraction over a layer of ring-less MULTIPOLYGON features appends one
empty `MultiPolygon` per feature. -/
theorem extract_all_null_multis (layer : List Feature)
    (h : layer.all isAllNullMulti = true) :
    extract_polygons_from_kml layer = .ok (layer.map fun _ => Geometry.multiPolygon []) := by
  induction layer with
  | nil => rfl
  | cons f rest ih =>
      rw [List.all_cons, Bool.and_eq_true] at h
      obtain ⟨h1, h2⟩ := h
      unfold isAllNullMulti at h1
      cases hg : f.geom with
      | none => rw [hg] at h1; exact absurd h1 (by simp)
      | some raw =>
          cases raw with
          | polygon o => rw [hg] at h1; exact absurd h1 (by simp)
          | other t => rw [hg] at h1; exact absurd h1 (by simp)
          | multiPolygon subs =>
              rw [hg] at h1
              simp [extract_polygons_from_kml, extractFeature, hg,
                subPolygons_of_all_none subs h1, ih h2, Except.bind, bind]

/-! ### Claim theorems -/

/-- C3: If extraction yields zero polygons, `create_convex_hull` raises the
fatal `ValueError` of line 58 ("No polygons found to create a convex
hull."); no union, hull computation, or output write is attempted (the run
records no output-side events). -/
theorem empty_extraction_raises (B : GeosBackend) (layer : List Feature)
    (hex : extract_polygons_from_kml layer = .ok []) :
    create_convex_hull B layer = ⟨.raised "No polygons found to create a convex hull.", []⟩ := by
  simp [create_convex_hull, hex]

/-- Witness for `empty_extraction_raises`: a layer holding a single
non-polygonal feature extracts to the empty collection and raises. -/
theorem empty_extraction_raises_witness :
    extract_polygons_from_kml [⟨some "line", some (.other "LINESTRING")⟩] = .ok [] ∧
    create_convex_hull geosModel [⟨some "line", some (.other "LINESTRING")⟩] =
      ⟨.raised "No polygons found to create a convex hull.", []⟩ :=
  ⟨by simp [extract_polygons_from_kml, extractFeature, Except.bind, bind],
   empty_extraction_raises geosModel _
     (by simp [extract_polygons_from_kml, extractFeature, Except.bind, bind])⟩

/-- C4: If the collection is non-empty after extraction but the filtered
set of line 61 is empty, the run returns normally at line 65 (no exception)
and the writer is never invoked: a soft stop with a user-visible message. -/
theorem no_valid_polygons_soft_stop (B : GeosBackend) (layer : List Feature)
    (polys : List Geometry) (hex : extract_polygons_from_kml layer = .ok polys)
    (hne : polys ≠ []) (hvp : valid_polygons B polys = []) :
    create_convex_hull B layer = ⟨.softStopNoValid, []⟩ :=
  create_soft_stop B layer polys hex hne hvp

/-- Witness for `no_valid_polygons_soft_stop`: a POLYGON feature with a
zero-point outer ring extracts to one empty polygon, which the filter
removes; the run soft-stops. -/
theorem no_valid_polygons_soft_stop_witness :
    extract_polygons_from_kml [⟨none, some (.polygon (some []))⟩] = .ok [.polygon []] ∧
    create_convex_hull geosModel [⟨none, some (.polygon (some []))⟩] =
      ⟨.softStopNoValid, []⟩ :=
  ⟨by simp [extract_polygons_from_kml, extractFeature, linearRing, ringCoords,
      Except.bind, bind],
   no_valid_polygons_soft_stop geosModel _ [.polygon []]
     (by simp [extract_polygons_from_kml, extractFeature, linearRing, ringCoords,
        Except.bind, bind])
     (by simp)
     (by simp [valid_polygons, isinstancePolygon, Geometry.is_empty])⟩

/-- C10: For a non-empty layer whose features are all MULTIPOLYGONs with
no extractable sub-rings, extraction still appends one empty
`MultiPolygon` per feature, so the collection is non-empty and the run
takes the soft-stop path of line 65 rather than the `NoPolygonsFound`
exception of line 58. -/
theorem all_null_multipolygons_soft_stop (B : GeosBackend) (layer : List Feature)
    (hne : layer ≠ []) (hall : layer.all isAllNullMulti = true) :
    extract_polygons_from_kml layer = .ok (layer.map fun _ => Geometry.multiPolygon []) ∧
    create_convex_hull B layer = ⟨.softStopNoValid, []⟩ := by
  have hex := extract_all_null_multis layer hall
  refine ⟨hex, create_soft_stop B layer _ hex ?_ ?_⟩
  · simp [hne]
  · unfold valid_polygons
    rw [List.filter_eq_nil_iff.mpr, List.map_nil]
    intro g hg
    rcases List.mem_map.mp hg with ⟨f, _, rfl⟩
    simp [isinstancePolygon]

/-- Witness for `all_null_multipolygons_soft_stop`: one MULTIPOLYGON
feature with two null sub-ring handles. -/
theorem all_null_multipolygons_soft_stop_witness :
    extract_polygons_from_kml [⟨none, some (.multiPolygon [none, none])⟩] =
      .ok [.multiPolygon []] ∧
    create_convex_hull geosModel [⟨none, some (.multiPolygon [none, none])⟩] =
      ⟨.softStopNoValid, []⟩ :=
  all_null_multipolygons_soft_stop geosModel [⟨none, some (.multiPolygon [none, none])⟩]
    (by simp) (by simp [isAllNullMulti])

/-- C1: evaluation of the code at a MULTIPOLYGON-only input. Extraction
appends the feature's `MultiPolygon` (with its non-empty, non-degenerate
triangle part) to the collection, but the comprehension at line 61 tests
`isinstance(poly, Polygon)`, which is false for a shapely `MultiPolygon`,
so the collection handed to `unary_union` is empty and the run soft-stops:
the MultiPolygon's constituent polygons are dropped rather than flattened
into the union, contrary to the claim. -/
theorem multipolygon_dropped_before_union :
    extract_polygons_from_kml layerMulti = .ok [.multiPolygon [tri4]] ∧
    Geometry.is_empty (.multiPolygon [tri4]) = false ∧
    valid_polygons geosModel [.multiPolygon [tri4]] = [] ∧
    create_convex_hull geosModel layerMulti = ⟨.softStopNoValid, []⟩ := by
  refine ⟨?_, by simp [Geometry.is_empty, tri4], ?_, ?_⟩
  · norm_num [layerMulti, extract_polygons_from_kml, extractFeature, subPolygons, linearRing,
      ringCoords_eq_map, triRaw, tri4, closeRing, Except.bind, bind]
  · norm_num [valid_polygons, isinstancePolygon, Geometry.is_empty]
  · norm_num [create_convex_hull, layerMulti, extract_polygons_from_kml, extractFeature,
      subPolygons, linearRing, ringCoords_eq_map, triRaw, tri4, closeRing, Except.bind, bind,
      valid_polygons, isinstancePolygon, Geometry.is_empty]

/-- C5 counterexample: a non-empty but zero-area (collinear) polygon
passes the pre-repair filter of line 61, is repaired by `buffer(0)` to an
empty polygon, and that empty polygon is in the collection handed to
`unary_union`: a post-repair-empty polygon does reach the union step. -/
theorem post_repair_empty_reaches_union :
    extract_polygons_from_kml layerCollinear = .ok [.polygon col4] ∧
    geosModel.is_valid (.polygon col4) = false ∧
    valid_polygons geosModel [.polygon col4] = [Geometry.polygon []] ∧
    Geometry.is_empty (Geometry.polygon []) = true ∧
    create_convex_hull geosModel layerCollinear = ⟨.stopEmptyHull, []⟩ := by
  refine ⟨?_, ?_, ?_, by simp [Geometry.is_empty], ?_⟩
  · norm_num [layerCollinear, extract_polygons_from_kml, extractFeature, linearRing,
      ringCoords_eq_map, colRaw, col4, closeRing, Except.bind, bind]
  · norm_num [geosModel, col4, ringArea2]
  · norm_num [valid_polygons, isinstancePolygon, Geometry.is_empty, validate_and_fix_polygon,
      geosModel, col4, ringArea2]
  · norm_num [create_convex_hull, layerCollinear, extract_polygons_from_kml, extractFeature,
      linearRing, ringCoords_eq_map, colRaw, col4, closeRing, Except.bind, bind,
      valid_polygons, isinstancePolygon, Geometry.is_empty, validate_and_fix_polygon,
      geosModel, ringArea2]

/-- C5 (amended): exclusion happens only in the pre-repair filter of line
61. Every extracted element that is a `Polygon` instance and non-empty
*before* repair has its repaired result in the collection handed to
`unary_union` — whether or not that result is empty. -/
theorem nonempty_polygon_repair_reaches_union (B : GeosBackend) (polys : List Geometry)
    (g : Geometry) (hg : g ∈ polys) (hinst : isinstancePolygon g = true)
    (hne : g.is_empty = false) :
    validate_and_fix_polygon B g ∈ valid_polygons B polys := by
  unfold valid_polygons
  exact List.mem_map_of_mem _ (List.mem_filter.mpr ⟨hg, by rw [hinst, hne]; rfl⟩)

/-- Witness for `nonempty_polygon_repair_reaches_union` at the collinear
polygon, whose repaired result is the empty polygon. -/
theorem nonempty_polygon_repair_reaches_union_witness :
    Geometry.polygon col4 ∈ [Geometry.polygon col4] ∧
    isinstancePolygon (.polygon col4) = true ∧
    Geometry.is_empty (.polygon col4) = false ∧
    validate_and_fix_polygon geosModel (.polygon col4) ∈
      valid_polygons geosModel [Geometry.polygon col4] :=
  ⟨List.mem_singleton.mpr rfl, rfl, rfl,
   nonempty_polygon_repair_reaches_union geosModel [Geometry.polygon col4]
     (.polygon col4) (List.mem_singleton.mpr rfl) rfl rfl⟩

/-- C6: `validate_and_fix_polygon` is idempotent whenever the library's
`buffer(0)` returns a valid geometry at the repaired point (GEOS documents
buffer results as valid); in particular a valid polygon is returned
unchanged. -/
theorem repair_idempotent (B : GeosBackend) (p : Geometry)
    (hbuf : B.is_valid (B.buffer0 p) = true) :
    validate_and_fix_polygon B (validate_and_fix_polygon B p) = validate_and_fix_polygon B p ∧
    (B.is_valid p = true → validate_and_fix_polygon B p = p) := by
  unfold validate_and_fix_polygon
  by_cases h : B.is_valid p = true
  · simp [h]
  · simp [h, hbuf]

/-- Witness for `repair_idempotent` at the invalid collinear polygon:
`buffer(0)` collapses it to the (valid) empty polygon, and repairing again
is a no-op. -/
theorem repair_idempotent_witness :
    geosModel.is_valid (geosModel.buffer0 (.polygon col4)) = true ∧
    (validate_and_fix_polygon geosModel (validate_and_fix_polygon geosModel (.polygon col4)) =
        validate_and_fix_polygon geosModel (.polygon col4) ∧
      (geosModel.is_valid (.polygon col4) = true →
        validate_and_fix_polygon geosModel (.polygon col4) = .polygon col4)) :=
  ⟨by norm_num [geosModel, col4, ringArea2, Geometry.is_empty],
   repair_idempotent geosModel (.polygon col4)
     (by norm_num [geosModel, col4, ringArea2, Geometry.is_empty])⟩

/-- C2: for a layer holding exactly one POLYGON feature whose ring
constructs successfully as the non-empty closed ring `r`, with the polygon
valid (so repair is a no-op), and with the library's documented behavior
at this input — union of a one-element collection is its element, and the
computed hull spans the same convex hull as the input's vertex set — the
pipeline writes a hull whose convex span is exactly the convex hull
(minimal convex region) of the polygon's vertex set `{q | q ∈ r}`. -/
theorem single_polygon_hull_correct (B : GeosBackend) (nm : Option String)
    (ring : List RawPoint) (r : List Pt)
    (hconstruct : linearRing (ringCoords ring) = .ok r)
    (hne : r ≠ [])
    (hvalid : B.is_valid (.polygon r) = true)
    (hsingle : B.unary_union [.polygon r] = .polygon r)
    (hhullv : convexHull ℚ (vertexSet (B.convex_hull (.polygon r))) =
      convexHull ℚ (vertexSet (.polygon r)))
    (hhullne : (B.convex_hull (.polygon r)).is_empty = false) :
    create_convex_hull B [⟨nm, some (.polygon (some ring))⟩] =
      ⟨.written (B.convex_hull (.polygon r)), [.createDataSource, .createFeature]⟩ ∧
    convexHull ℚ (vertexSet (B.convex_hull (.polygon r))) = convexHull ℚ {q | q ∈ r} := by
  have hex : extract_polygons_from_kml [⟨nm, some (.polygon (some ring))⟩] =
      .ok [.polygon r] := by
    simp [extract_polygons_from_kml, extractFeature, hconstruct, Except.bind, bind]
  have hrE : r.isEmpty = false := by
    cases r with
    | nil => exact absurd rfl hne
    | cons a t => rfl
  have hvp : valid_polygons B [.polygon r] = [.polygon r] := by
    simp [valid_polygons, isinstancePolygon, Geometry.is_empty, hrE,
      validate_and_fix_polygon, hvalid]
  refine ⟨?_, hhullv⟩
  simp [create_convex_hull, hex, hvp, hsingle, hhullne, createGeometryFromWkt]

/-- Witness for `single_polygon_hull_correct` at the triangle layer. -/
theorem single_polygon_hull_correct_witness :
    linearRing (ringCoords triRaw) = .ok tri4 ∧
    geosModel.is_valid (.polygon tri4) = true ∧
    (create_convex_hull geosModel [⟨some "t", some (.polygon (some triRaw))⟩] =
       ⟨.written (geosModel.convex_hull (.polygon tri4)),
        [.createDataSource, .createFeature]⟩ ∧
     convexHull ℚ (vertexSet (geosModel.convex_hull (.polygon tri4))) =
       convexHull ℚ {q | q ∈ tri4}) :=
  ⟨by norm_num [linearRing, ringCoords_eq_map, triRaw, tri4, closeRing],
   by norm_num [geosModel, tri4, ringArea2],
   single_polygon_hull_correct geosModel (some "t") triRaw tri4
     (by norm_num [linearRing, ringCoords_eq_map, triRaw, tri4, closeRing])
     (by simp [tri4])
     (by norm_num [geosModel, tri4, ringArea2])
     rfl rfl rfl⟩

/-- C7: the union-then-hull reduction of lines 67–68 is order-independent
in exact arithmetic: for any collection of valid non-empty polygons and
any permutation of it, the convex hull of the dissolved union denotes the
same region (hence the same hull vertex set), whatever region each input
geometry denotes. -/
theorem union_hull_order_independent (B : GeosBackend) (region : Geometry → Set Pt)
    (l l2 : List Geometry) (hperm : l.Perm l2)
    (_hvalid : ∀ g ∈ l, B.is_valid g = true) (_hne : ∀ g ∈ l, g.is_empty = false) :
    unionHullRegion region l = unionHullRegion region l2 := by
  unfold unionHullRegion unionRegion
  refine congrArg (convexHull ℚ) ?_
  ext x
  simp only [Set.mem_iUnion, exists_prop]
  exact ⟨fun ⟨g, hg, hx⟩ => ⟨g, hperm.mem_iff.mp hg, hx⟩,
    fun ⟨g, hg, hx⟩ => ⟨g, hperm.mem_iff.mpr hg, hx⟩⟩

/-- Witness for `union_hull_order_independent`: swapping two valid
non-empty polygons (a triangle and a square), with each geometry denoting
the region spanned by its own vertices. -/
theorem union_hull_order_independent_witness :
    [Geometry.polygon tri4, Geometry.polygon sq4].Perm
      [Geometry.polygon sq4, Geometry.polygon tri4] ∧
    (∀ g ∈ [Geometry.polygon tri4, Geometry.polygon sq4], geosModel.is_valid g = true) ∧
    (∀ g ∈ [Geometry.polygon tri4, Geometry.polygon sq4], g.is_empty = false) ∧
    unionHullRegion vertexSet [Geometry.polygon tri4, Geometry.polygon sq4] =
      unionHullRegion vertexSet [Geometry.polygon sq4, Geometry.polygon tri4] := by
  have hperm : [Geometry.polygon tri4, Geometry.polygon sq4].Perm
      [Geometry.polygon sq4, Geometry.polygon tri4] :=
    List.Perm.swap (Geometry.polygon sq4) (Geometry.polygon tri4) []
  have hvalid : ∀ g ∈ [Geometry.polygon tri4, Geometry.polygon sq4],
      geosModel.is_valid g = true := by
    intro g hg
    simp only [List.mem_cons, List.not_mem_nil, or_false] at hg
    rcases hg with rfl | rfl
    · norm_num [geosModel, tri4, ringArea2]
    · norm_num [geosModel, sq4, ringArea2]
  have hne : ∀ g ∈ [Geometry.polygon tri4, Geometry.polygon sq4], g.is_empty = false := by
    intro g hg
    simp only [List.mem_cons, List.not_mem_nil, or_false] at hg
    rcases hg with rfl | rfl <;> rfl
  exact ⟨hperm, hvalid, hne,
    union_hull_order_independent geosModel vertexSet _ _ hperm hvalid hne⟩

/-- C8: no output-file creation before a successful non-empty hull. If a
run recorded the creation of the output data source (line 80), the run's
outcome is a written non-empty hull; and any run that did not end in a
write recorded no output-side event at all. -/
theorem no_output_file_before_hull (B : GeosBackend) (layer : List Feature) :
    (Event.createDataSource ∈ (create_convex_hull B layer).events →
      ∃ h, (create_convex_hull B layer).outcome = .written h ∧ h.is_empty = false) ∧
    ((create_convex_hull B layer).outcome.isWritten = false →
      (create_convex_hull B layer).events = []) := by
  unfold create_convex_hull
  cases hex : extract_polygons_from_kml layer with
  | error e => simp [Outcome.isWritten]
  | ok polys =>
      by_cases h1 : polys.isEmpty
      · simp [h1, Outcome.isWritten]
      · by_cases h2 : (valid_polygons B polys).isEmpty
        · simp [h1, h2, Outcome.isWritten]
        · by_cases h3 : (B.convex_hull (B.unary_union (valid_polygons B polys))).is_empty
          · simp [h1, h2, h3, Outcome.isWritten]
          · simp only [Bool.not_eq_true] at h3
            simp [h1, h2, h3, Outcome.isWritten, createGeometryFromWkt]

/-- Witness for `no_output_file_before_hull`: a failing run (no features)
records no events, and a successful triangle run that did record the
data-source creation ends written with a non-empty hull. -/
theorem no_output_file_before_hull_witness :
    ((create_convex_hull geosModel []).outcome.isWritten = false ∧
      (create_convex_hull geosModel []).events = []) ∧
    (Event.createDataSource ∈ (create_convex_hull geosModel layerTri).events ∧
      ∃ h, (create_convex_hull geosModel layerTri).outcome = .written h ∧
        h.is_empty = false) := by
  have hrunTri : create_convex_hull geosModel layerTri =
      ⟨.written (.polygon tri4), [.createDataSource, .createFeature]⟩ := by
    norm_num [create_convex_hull, layerTri, extract_polygons_from_kml, extractFeature,
      linearRing, ringCoords_eq_map, triRaw, tri4, closeRing, Except.bind, bind,
      valid_polygons, isinstancePolygon, Geometry.is_empty, validate_and_fix_polygon,
      geosModel, ringArea2, createGeometryFromWkt]
  have hmem : Event.createDataSource ∈ (create_convex_hull geosModel layerTri).events := by
    rw [hrunTri]; simp
  exact ⟨⟨rfl, (no_output_file_before_hull geosModel []).2 rfl⟩,
    ⟨hmem, (no_output_file_before_hull geosModel layerTri).1 hmem⟩⟩

/-- C9 (amended): reading out the ring is total and order-preserving — the
comprehension yields exactly the N `(x, y)` pairs in source order — but
wrapping them in a shapely `Polygon` succeeds exactly when the ring is
empty or has at least 4 coordinates after closing; for 1- or 2-point rings
the constructor raises instead. -/
theorem ring_extraction_order_and_wrap (ring : List RawPoint) :
    ringCoords ring = ring.map (fun p => (p.1, p.2.1)) ∧
    (succeeds (shapelyPolygon (ringCoords ring)) = true ↔
      (ring = [] ∨ 4 ≤ (closeRing (ringCoords ring)).length)) := by
  refine ⟨ringCoords_eq_map ring, ?_⟩
  have hnil : (ringCoords ring).isEmpty = true ↔ ring = [] := by
    rw [ringCoords_eq_map, List.isEmpty_iff, List.map_eq_nil_iff]
  unfold shapelyPolygon linearRing
  by_cases h0 : (ringCoords ring).isEmpty
  · have hre : ringCoords ring = [] := List.isEmpty_iff.mp h0
    simp [hre, succeeds, Except.map, hnil.mp h0, ringCoords]
  · by_cases h4 : (closeRing (ringCoords ring)).length < 4
    · have hner : ¬ ring = [] := fun he => h0 (hnil.mpr he)
      simp [h0, h4, succeeds, Except.map, hner]
    · simp [h0, h4, succeeds, Except.map]
      omega

/-- Witness for `ring_extraction_order_and_wrap` at the triangle ring. -/
theorem ring_extraction_order_and_wrap_witness :
    ringCoords triRaw = triRaw.map (fun p => (p.1, p.2.1)) ∧
    (succeeds (shapelyPolygon (ringCoords triRaw)) = true ↔
      (triRaw = [] ∨ 4 ≤ (closeRing (ringCoords triRaw)).length)) :=
  ring_extraction_order_and_wrap triRaw

/-- C9 counterexample: a 2-point outer ring. Reading the points out
succeeds, but wrapping them as a polygon raises shapely's `ValueError`,
and the exception aborts the whole run — extraction is not total over
rings with N ≥ 0 points. -/
theorem two_point_ring_polygon_raises :
    shapelyPolygon (ringCoords [((0 : ℚ), (0 : ℚ), (0 : ℚ)), (1, 1, 0)]) =
      .error "A linearring requires at least 4 coordinates" ∧
    create_convex_hull geosModel [⟨none, some (.polygon (some [((0 : ℚ), 0, 0), (1, 1, 0)]))⟩] =
      ⟨.raised "A linearring requires at least 4 coordinates", []⟩ := by
  constructor
  · norm_num [shapelyPolygon, linearRing, ringCoords_eq_map, closeRing, Except.map]
  · norm_num [create_convex_hull, extract_polygons_from_kml, extractFeature, linearRing,
      ringCoords_eq_map, closeRing, Except.bind, bind]

end KmlHull
